import Mathlib

/-!
Shallow embedding of the PINE IPC client (pcsx2.py / pine.py): request
encoding, framed response decoding, connection state transitions, and the
slot-validated constructor. Bytes are modelled as natural numbers below 256
in lists; Python exceptions are modelled as explicit outcome constructors;
the fallible int.to_bytes is Option-valued.
-/

namespace Pine

/-- Maximum memory used by an IPC message request (pcsx2.py line 25). -/
def MAX_IPC_SIZE : Nat := 650000

/-- Maximum memory used by an IPC message reply (pcsx2.py line 28). -/
def MAX_IPC_RETURN_SIZE : Nat := 450000

/-- IPC result code for success (IPCResult.IPC_OK). -/
def IPC_OK : Nat := 0

/-- IPC result code for failure (IPCResult.IPC_FAIL). -/
def IPC_FAIL : Nat := 0xFF

/-- Operand widths supported by read and write (class DataSize). -/
inductive DataSize
  | INT8
  | INT16
  | INT32
  | INT64
deriving DecidableEq

/-- Numeric value of a DataSize member, which is also its operand width in bytes. -/
def DataSize.width : DataSize → Nat
  | INT8 => 1
  | INT16 => 2
  | INT32 => 4
  | INT64 => 8

/-- Opcode selected by read for each width (IPCCommand.READ8 .. READ64). -/
def readOpcode : DataSize → Nat
  | DataSize.INT8 => 0
  | DataSize.INT16 => 1
  | DataSize.INT32 => 2
  | DataSize.INT64 => 3

/-- Opcode selected by write for each width (IPCCommand.WRITE8 .. WRITE64). -/
def writeOpcode : DataSize → Nat
  | DataSize.INT8 => 4
  | DataSize.INT16 => 5
  | DataSize.INT32 => 6
  | DataSize.INT64 => 7

/-- Little-endian digits base 256: the list of n bytes of v, least significant first.
This is the value computed by int.to_bytes when it does not raise. -/
def toLE : Nat → Nat → List Nat
  | _, 0 => []
  | v, n + 1 => v % 256 :: toLE (v / 256) n

/-- Pine.to_array (pcsx2.py lines 212-214): value.to_bytes(length=size, byteorder=little).
int.to_bytes raises OverflowError when value is negative or does not fit in size
bytes; that is modelled by none. -/
def to_array (value : Int) (size : Nat) : Option (List Nat) :=
  if 0 ≤ value ∧ value < (256 : Int) ^ size then some (toLE value.toNat size) else none

/-- Pine.from_array (pcsx2.py lines 216-218): int.from_bytes(arr, byteorder=little).
The size parameter is accepted and ignored, exactly as in the source. -/
def from_array (arr : List Nat) (size : Nat) : Nat :=
  arr.foldr (fun b acc => b + 256 * acc) 0

/-- Pine.create_request (pcsx2.py lines 205-210, named with a leading underscore in
the source): 4-byte little-endian size, then 1-byte command, then 4-byte
little-endian address. -/
def create_request (command : Nat) (address : Int) (size : Nat) : Option (List Nat) := do
  let a ← to_array (Int.ofNat size) 4
  let b ← to_array (Int.ofNat command) 1
  let c ← to_array address 4
  pure (a ++ b ++ c)

/-- The request bytes built by Pine.read before sending (pcsx2.py lines 104-114):
a read request always passes total size 9. -/
def readRequest (ds : DataSize) (address : Int) : Option (List Nat) :=
  create_request (readOpcode ds) address 9

/-- The request bytes built by Pine.write before sending (pcsx2.py lines 154-166):
a write request passes total size 9 + width and appends the payload encoded by
Pine.to_array at the command width. -/
def writeRequest (ds : DataSize) (address : Int) (data : Int) : Option (List Nat) := do
  let req ← create_request (writeOpcode ds) address (9 + ds.width)
  let payload ← to_array data ds.width
  pure (req ++ payload)

/-- One transport interaction inside the receive loop: sock.recv(4096) either
returns a chunk of bytes (possibly empty, when the peer closed) or raises
TimeoutError. -/
inductive RecvEvent
  | chunk (c : List Nat)
  | timeout
deriving DecidableEq

/-- How the receive while-loop of Pine.read (pcsx2.py lines 126-145) terminates:
with an accumulated result, with a TimeoutError raised, or blocked forever
waiting on recv because the transport delivers nothing further. -/
inductive LoopRes
  | done (result : List Nat)
  | timedOut
  | blocked
deriving DecidableEq

/-- The receive while-loop of Pine.read (pcsx2.py lines 126-145), transcribed
clause by clause: while len(result) < end_length, recv a chunk; an empty chunk
resets result and breaks; otherwise the chunk is appended, and when end_length
is still 4 and the CHUNK itself has at least 4 bytes the first 4 accumulated
bytes are decoded little-endian into end_length, resetting and breaking when
that exceeds MAX_IPC_SIZE. -/
def recvLoop : Nat → List Nat → List RecvEvent → LoopRes
  | endLength, result, [] =>
    if result.length < endLength then LoopRes.blocked else LoopRes.done result
  | endLength, result, RecvEvent.timeout :: _ =>
    if result.length < endLength then LoopRes.timedOut else LoopRes.done result
  | endLength, result, RecvEvent.chunk c :: rest =>
    if result.length < endLength then
      if c.length = 0 then LoopRes.done []
      else
        if endLength = 4 ∧ 4 ≤ c.length then
          if MAX_IPC_SIZE < from_array ((result ++ c).take 4) 4 then LoopRes.done []
          else recvLoop (from_array ((result ++ c).take 4) 4) (result ++ c) rest
        else recvLoop endLength (result ++ c) rest
    else LoopRes.done result

/-- Outcome of one read call past the send step, with each Python exception as a
constructor: ConnectionError for a lost connection on send, TimeoutError,
ConnectionError for an invalid (empty) response, ConnectionError for a peer
reported failure, and the IndexError that result[4] raises on a frame shorter
than 5 bytes. -/
inductive CallOutcome
  | ok (frame : List Nat)
  | connLost
  | timedOut
  | invalid
  | peerFail
  | indexErr
  | blocked
deriving DecidableEq

/-- The checks Pine.read performs after its receive loop (pcsx2.py lines 147-152):
empty result raises the invalid-response ConnectionError, then result[4] is
compared against IPC_FAIL, and otherwise the WHOLE accumulated result is
returned. Accessing result[4] on a result of 1 to 4 bytes raises IndexError. -/
def postCheck (result : List Nat) : CallOutcome :=
  if result.length = 0 then CallOutcome.invalid
  else if 4 < result.length then
    if result.getD 4 0 = IPC_FAIL then CallOutcome.peerFail else CallOutcome.ok result
  else CallOutcome.indexErr

/-- The receive loop of Pine.read followed by its post-frame checks
(pcsx2.py lines 126-152). -/
def recvExchange (evs : List RecvEvent) : CallOutcome :=
  match recvLoop 4 [] evs with
  | LoopRes.done r => postCheck r
  | LoopRes.timedOut => CallOutcome.timedOut
  | LoopRes.blocked => CallOutcome.blocked

/-- Connection state: the sock_state flag and whether the socket handle has been
closed. -/
structure ConnState where
  sockState : Bool
  sockClosed : Bool
deriving DecidableEq

/-- Pine.init_socket (pcsx2.py lines 77-102, named with a leading underscore in
the source), abstracting the platform endpoint selection: on a connection error
the socket is closed and sock_state set to False, returning normally; on
success sock_state is True with an open handle. -/
def init_socket (connectOk : Bool) : ConnState :=
  if connectOk then ⟨true, false⟩ else ⟨false, true⟩

/-- Whether sock.sendall succeeded or raised socket.error. -/
inductive SendRes
  | ok
  | err
deriving DecidableEq

/-- The transport portion of Pine.read (pcsx2.py lines 116-152) with the encoded
request abstracted: reconnect when sock_state is False, then send; a send error
closes the socket, clears sock_state and raises the lost-connection
ConnectionError; otherwise the receive exchange runs without touching the
connection state. -/
def readConn (st : ConnState) (reconnectOk : Bool) (send : SendRes)
    (evs : List RecvEvent) : ConnState × CallOutcome :=
  let st1 := if st.sockState then st else init_socket reconnectOk
  match send with
  | SendRes.err => (⟨false, true⟩, CallOutcome.connLost)
  | SendRes.ok => (st1, recvExchange evs)

/-- Pine.__init__ (pcsx2.py lines 65-74): slot outside 0 < slot ≤ 65536 raises
ValueError (modelled none); otherwise construction runs init_socket, whose
failure does not fail construction. -/
def pineInit (slot : Int) (connectOk : Bool) : Option ConnState :=
  if 0 < slot ∧ slot ≤ 65536 then some (init_socket connectOk) else none

/-- The receive while-loop of Pine.write (pcsx2.py lines 178-197), transcribed
independently from those lines; the source repeats the loop of Pine.read
verbatim. -/
def writeRecvLoop : Nat → List Nat → List RecvEvent → LoopRes
  | endLength, result, [] =>
    if result.length < endLength then LoopRes.blocked else LoopRes.done result
  | endLength, result, RecvEvent.timeout :: _ =>
    if result.length < endLength then LoopRes.timedOut else LoopRes.done result
  | endLength, result, RecvEvent.chunk c :: rest =>
    if result.length < endLength then
      if c.length = 0 then LoopRes.done []
      else
        if endLength = 4 ∧ 4 ≤ c.length then
          if MAX_IPC_SIZE < from_array ((result ++ c).take 4) 4 then LoopRes.done []
          else writeRecvLoop (from_array ((result ++ c).take 4) 4) (result ++ c) rest
        else writeRecvLoop endLength (result ++ c) rest
    else LoopRes.done result

/-- Outcome of one write call past the send step. Unlike read, write returns
nothing on success, so the success constructor carries no frame. -/
inductive WriteOutcome
  | ok
  | connLost
  | timedOut
  | invalid
  | peerFail
  | indexErr
  | blocked
deriving DecidableEq

/-- The checks Pine.write performs after its receive loop (pcsx2.py lines
199-202): identical to those of read except that nothing is returned, so the
frame is discarded on success. -/
def writePostCheck (result : List Nat) : WriteOutcome :=
  if result.length = 0 then WriteOutcome.invalid
  else if 4 < result.length then
    if result.getD 4 0 = IPC_FAIL then WriteOutcome.peerFail else WriteOutcome.ok
  else WriteOutcome.indexErr

/-- The receive loop of Pine.write followed by its post-frame checks
(pcsx2.py lines 178-202). -/
def writeRecvExchange (evs : List RecvEvent) : WriteOutcome :=
  match writeRecvLoop 4 [] evs with
  | LoopRes.done r => writePostCheck r
  | LoopRes.timedOut => WriteOutcome.timedOut
  | LoopRes.blocked => WriteOutcome.blocked

/-- The transport portion of Pine.write (pcsx2.py lines 168-202) with the
encoded request abstracted, mirroring readConn. -/
def writeConn (st : ConnState) (reconnectOk : Bool) (send : SendRes)
    (evs : List RecvEvent) : ConnState × WriteOutcome :=
  let st1 := if st.sockState then st else init_socket reconnectOk
  match send with
  | SendRes.err => (⟨false, true⟩, WriteOutcome.connLost)
  | SendRes.ok => (st1, writeRecvExchange evs)

/-- Forgets the returned frame of a read outcome, mapping each error kind to the
corresponding write error kind; used to compare the two call paths. -/
def eraseFrame : CallOutcome → WriteOutcome
  | CallOutcome.ok _ => WriteOutcome.ok
  | CallOutcome.connLost => WriteOutcome.connLost
  | CallOutcome.timedOut => WriteOutcome.timedOut
  | CallOutcome.invalid => WriteOutcome.invalid
  | CallOutcome.peerFail => WriteOutcome.peerFail
  | CallOutcome.indexErr => WriteOutcome.indexErr
  | CallOutcome.blocked => WriteOutcome.blocked

/-- Modelled from the spec: the request decoder of the round-trip property.
No decoder for requests exists in the source; following the round-trip
property, the opcode is the byte at offset 4, the address the little-endian
integer at offsets 5..8, and the payload the bytes from offset 9. -/
def decodeRequest (req : List Nat) : Nat × Nat × List Nat :=
  (req.getD 4 0, from_array ((req.drop 5).take 4) 4, req.drop 9)

/-! ### Helper lemmas on the byte codecs -/

theorem toLE_length (n : Nat) : ∀ v : Nat, (toLE v n).length = n := by
  induction n with
  | zero => intro v; rfl
  | succ m ih => intro v; simp [toLE, ih]

theorem from_array_toLE (n : Nat) :
    ∀ v : Nat, v < 256 ^ n → from_array (toLE v n) 4 = v := by
  induction n with
  | zero =>
    intro v hv
    simp [toLE, from_array]
    omega
  | succ m ih =>
    intro v hv
    have hdiv : v / 256 < 256 ^ m := by
      rw [Nat.div_lt_iff_lt_mul (by norm_num : 0 < 256)]
      calc v < 256 ^ (m + 1) := hv
        _ = 256 ^ m * 256 := by ring
    have := ih (v / 256) hdiv
    simp only [toLE, from_array, List.foldr_cons] at *
    rw [this, Nat.add_comm, Nat.div_add_mod]

theorem to_array_fits (v : Int) (n : Nat) (h1 : 0 ≤ v) (h2 : v < (256 : Int) ^ n) :
    to_array v n = some (toLE v.toNat n) := by
  unfold to_array
  rw [if_pos ⟨h1, h2⟩]

theorem to_array_overflow (v : Int) (n : Nat) (h : ¬(0 ≤ v ∧ v < (256 : Int) ^ n)) :
    to_array v n = none := by
  unfold to_array
  rw [if_neg h]

theorem create_request_eq (command : Nat) (address : Int) (size : Nat)
    (hc : command < 256) (hs : size < 4294967296)
    (h1 : 0 ≤ address) (h2 : address < 4294967296) :
    create_request command address size
      = some (toLE size 4 ++ [command] ++ toLE address.toNat 4) := by
  have p4 : (256 : Int) ^ 4 = 4294967296 := by norm_num
  have p1 : (256 : Int) ^ 1 = 256 := by norm_num
  have e1 : to_array ((size : Int)) 4 = some (toLE size 4) := by
    rw [to_array_fits ((size : Int)) 4 (Int.natCast_nonneg size) (by rw [p4]; omega)]
    simp
  have e2 : to_array ((command : Int)) 1 = some [command] := by
    rw [to_array_fits ((command : Int)) 1 (Int.natCast_nonneg command) (by rw [p1]; omega)]
    simp [toLE, Nat.mod_eq_of_lt hc]
  have e3 : to_array address 4 = some (toLE address.toNat 4) :=
    to_array_fits address 4 h1 (by rw [p4]; exact h2)
  simp [create_request, e1, e2, e3]

theorem readRequest_eq (ds : DataSize) (address : Int)
    (h1 : 0 ≤ address) (h2 : address < 4294967296) :
    readRequest ds address
      = some (toLE 9 4 ++ [readOpcode ds] ++ toLE address.toNat 4) := by
  have hc : readOpcode ds < 256 := by cases ds <;> decide
  exact create_request_eq (readOpcode ds) address 9 hc (by norm_num) h1 h2

theorem writeRequest_eq (ds : DataSize) (address data : Int)
    (h1 : 0 ≤ address) (h2 : address < 4294967296)
    (h3 : 0 ≤ data) (h4 : data < (256 : Int) ^ ds.width) :
    writeRequest ds address data
      = some (toLE (9 + ds.width) 4 ++ [writeOpcode ds] ++ toLE address.toNat 4
          ++ toLE data.toNat ds.width) := by
  have hc : writeOpcode ds < 256 := by cases ds <;> decide
  have hs : 9 + ds.width < 4294967296 := by cases ds <;> decide
  have e := create_request_eq (writeOpcode ds) address (9 + ds.width) hc hs h1 h2
  have ep := to_array_fits data ds.width h3 h4
  simp [writeRequest, e, ep]

theorem decode_of_layout (op sz a : Nat) (p : List Nat) (ha : a < 4294967296) :
    decodeRequest (toLE sz 4 ++ [op] ++ toLE a 4 ++ p) = (op, a, p) := by
  have hs : (toLE sz 4).length = 4 := toLE_length 4 sz
  have hA : (toLE a 4).length = 4 := toLE_length 4 a
  have ha2 : a < 256 ^ 4 := by
    have e : (256 : Nat) ^ 4 = 4294967296 := by norm_num
    omega
  unfold decodeRequest
  have e1 : (toLE sz 4 ++ [op] ++ toLE a 4 ++ p).getD 4 0 = op := by
    rw [List.getD_append _ _ _ _ (by simp [hs, hA]),
      List.getD_append _ _ _ _ (by simp [hs]),
      List.getD_append_right _ _ _ _ (by omega), hs]
    simp
  have e2 : (toLE sz 4 ++ [op] ++ toLE a 4 ++ p).drop 5 = toLE a 4 ++ p := by
    rw [List.append_assoc (toLE sz 4 ++ [op]) (toLE a 4) p,
      List.drop_left' (by simp [hs])]
  have e3 : (toLE sz 4 ++ [op] ++ toLE a 4 ++ p).drop 9 = p := by
    rw [List.drop_left' (by simp [hs, hA])]
  rw [e1, e2, e3, List.take_left' hA, from_array_toLE 4 a ha2]

theorem recvExchange_done (evs : List RecvEvent) (r : List Nat)
    (h : recvLoop 4 [] evs = LoopRes.done r) : recvExchange evs = postCheck r := by
  unfold recvExchange
  rw [h]

theorem writeRecvLoop_eq (evs : List RecvEvent) :
    ∀ e r, writeRecvLoop e r evs = recvLoop e r evs := by
  induction evs with
  | nil => intro e r; rfl
  | cons ev rest ih =>
    intro e r
    cases ev with
    | timeout => rfl
    | chunk c =>
      simp only [writeRecvLoop, recvLoop]
      split_ifs <;> simp [ih]

theorem writePostCheck_eq (r : List Nat) :
    writePostCheck r = eraseFrame (postCheck r) := by
  unfold writePostCheck postCheck
  split_ifs <;> rfl

theorem writeRecvExchange_eq (evs : List RecvEvent) :
    writeRecvExchange evs = eraseFrame (recvExchange evs) := by
  unfold writeRecvExchange recvExchange
  rw [writeRecvLoop_eq]
  cases recvLoop 4 [] evs <;> simp [writePostCheck_eq, eraseFrame]

/-- C1: the claim says a declared length equal to the maximum permitted
response size is accepted and max + 1 rejected as oversized before reading
further. The code compares the declared reply length against MAX_IPC_SIZE,
the request bound of 650000, not MAX_IPC_RETURN_SIZE = 450000: a declared
length of 450001 = MAX_IPC_RETURN_SIZE + 1 is accepted and the loop reads a
further chunk, while rejection only starts above 650000. -/
theorem oversize_check_compares_request_bound :
    recvLoop 4 [] [RecvEvent.chunk (toLE 450001 4), RecvEvent.chunk [0]]
      = LoopRes.blocked
    ∧ recvLoop 4 [] [RecvEvent.chunk (toLE 650000 4)] = LoopRes.blocked
    ∧ recvLoop 4 [] [RecvEvent.chunk (toLE 650001 4)] = LoopRes.done []
    ∧ recvExchange [RecvEvent.chunk (toLE 650001 4)] = CallOutcome.invalid
    ∧ 450001 = MAX_IPC_RETURN_SIZE + 1
    ∧ 650000 = MAX_IPC_SIZE := by decide

/-- C2: the claim says the frame length is decoded as soon as the accumulator
holds at least 4 bytes and the loop continues to the declared length,
regardless of chunk boundaries. The code instead tests the length of the
individual recv chunk: with the length field split across two 2-byte chunks,
declared length 8 is never decoded, the loop stops at the 4 accumulated bytes
without consuming the remaining payload chunk, and the status access result[4]
then raises IndexError. -/
theorem length_decode_needs_4byte_chunk :
    recvExchange [RecvEvent.chunk [8, 0], RecvEvent.chunk [0, 0]]
      = CallOutcome.indexErr
    ∧ recvLoop 4 []
        [RecvEvent.chunk [8, 0], RecvEvent.chunk [0, 0], RecvEvent.chunk [0, 0, 0, 0]]
      = LoopRes.done [8, 0, 0, 0]
    ∧ from_array [8, 0] 4 + 256 * 0 = 8 := by decide

/-- C3 counterexample: on the well-formed frame 06 00 00 00 00 AB the read
exchange returns the whole 6-byte frame, not the raw payload AB that the
claim (the bytes after the 4-byte length and the 1-byte status) requires. -/
theorem read_returns_frame_not_payload_cex :
    recvExchange [RecvEvent.chunk [6, 0, 0, 0, 0, 171]]
      = CallOutcome.ok [6, 0, 0, 0, 0, 171]
    ∧ [6, 0, 0, 0, 0, 171] ≠ ([6, 0, 0, 0, 0, 171] : List Nat).drop 5 := by decide

/-- C3 amended: a successful read returns the entire accumulated frame
unchanged, length field and status byte included; the payload, the bytes from
offset 5, is a strictly shorter suffix of what is returned. -/
theorem read_returns_whole_frame (evs : List RecvEvent) (r : List Nat)
    (h : recvExchange evs = CallOutcome.ok r) :
    recvLoop 4 [] evs = LoopRes.done r ∧ 4 < r.length
    ∧ (r.drop 5).length < r.length := by
  cases hl : recvLoop 4 [] evs with
  | done a =>
    have hpc : postCheck a = CallOutcome.ok r := by rw [← h]; exact (recvExchange_done evs a hl).symm
    unfold postCheck at hpc
    by_cases h0 : a.length = 0
    · rw [if_pos h0] at hpc; simp at hpc
    · rw [if_neg h0] at hpc
      by_cases h4 : 4 < a.length
      · rw [if_pos h4] at hpc
        by_cases hf : a.getD 4 0 = IPC_FAIL
        · rw [if_pos hf] at hpc; simp at hpc
        · rw [if_neg hf] at hpc
          injection hpc with hh
          subst hh
          exact ⟨rfl, h4, by rw [List.length_drop]; omega⟩
      · rw [if_neg h4] at hpc; simp at hpc
  | timedOut =>
    unfold recvExchange at h
    rw [hl] at h
    simp at h
  | blocked =>
    unfold recvExchange at h
    rw [hl] at h
    simp at h

/-- Witness for the amended C3 theorem at the concrete frame 06 00 00 00 00 AB. -/
theorem read_returns_whole_frame_witness :
    recvLoop 4 [] [RecvEvent.chunk [6, 0, 0, 0, 0, 171]]
      = LoopRes.done [6, 0, 0, 0, 0, 171]
    ∧ 4 < ([6, 0, 0, 0, 0, 171] : List Nat).length
    ∧ (([6, 0, 0, 0, 0, 171] : List Nat).drop 5).length
        < ([6, 0, 0, 0, 0, 171] : List Nat).length :=
  read_returns_whole_frame [RecvEvent.chunk [6, 0, 0, 0, 0, 171]]
    [6, 0, 0, 0, 0, 171] (by decide)

/-- C4 counterexample: a well-formed frame whose status byte is 2, which
differs from IPC_OK, is accepted by the read exchange instead of failing:
the code only compares the status byte against IPC_FAIL = 255. -/
theorem nonfail_status_accepted_cex :
    ([6, 0, 0, 0, 2, 9] : List Nat).getD 4 0 ≠ IPC_OK
    ∧ recvExchange [RecvEvent.chunk [6, 0, 0, 0, 2, 9]]
        = CallOutcome.ok [6, 0, 0, 0, 2, 9] := by decide

/-- C4 amended: for a completely assembled frame of more than 4 bytes, the
call fails with the peer-reported failure exactly when the status byte at
offset 4 equals IPC_FAIL = 255, and succeeds (returning the frame) for every
other status byte value; on failure no payload is returned. -/
theorem status_fail_check (evs : List RecvEvent) (r : List Nat)
    (hl : recvLoop 4 [] evs = LoopRes.done r) (hr : 4 < r.length) :
    (recvExchange evs = CallOutcome.peerFail ↔ r.getD 4 0 = IPC_FAIL)
    ∧ (r.getD 4 0 ≠ IPC_FAIL → recvExchange evs = CallOutcome.ok r) := by
  have he : recvExchange evs = postCheck r := recvExchange_done evs r hl
  have h0 : ¬r.length = 0 := by omega
  constructor
  · rw [he]
    unfold postCheck
    rw [if_neg h0, if_pos hr]
    by_cases hf : r.getD 4 0 = IPC_FAIL
    · rw [if_pos hf]
      exact iff_of_true rfl hf
    · rw [if_neg hf]
      exact iff_of_false (by simp) hf
  · intro hf
    rw [he]
    unfold postCheck
    rw [if_neg h0, if_pos hr, if_neg hf]

/-- Witness for the amended C4 theorem at a frame with status byte 255. -/
theorem status_fail_check_witness :
    recvExchange [RecvEvent.chunk [6, 0, 0, 0, 255, 1]] = CallOutcome.peerFail :=
  (status_fail_check [RecvEvent.chunk [6, 0, 0, 0, 255, 1]] [6, 0, 0, 0, 255, 1]
    (by decide) (by decide)).1.mpr (by decide)

/-- C5 counterexample: from the Connected state, a receive-side error (the
peer closes, delivering an empty chunk) raises the invalid-response error but
leaves sock_state True and the socket open, contradicting the claim that
every receive error transitions the connection to Disconnected with the
handle closed. -/
theorem recv_error_keeps_state_cex :
    (readConn ⟨true, false⟩ true SendRes.ok [RecvEvent.chunk []]).2
      = CallOutcome.invalid
    ∧ (readConn ⟨true, false⟩ true SendRes.ok [RecvEvent.chunk []]).1.sockState = true
    ∧ (readConn ⟨true, false⟩ true SendRes.ok [RecvEvent.chunk []]).1.sockClosed
        = false := by decide

/-- C5 amended: from Connected, a send error transitions the connection to
Disconnected with the socket closed and raises the lost-connection error;
receive-side failures leave the connection state untouched; and a failed
reconnect attempt returns normally leaving the state Disconnected with the
handle closed. -/
theorem conn_state_transitions (st : ConnState) (rc : Bool) (evs : List RecvEvent)
    (h : st.sockState = true) :
    readConn st rc SendRes.err evs = (⟨false, true⟩, CallOutcome.connLost)
    ∧ (readConn st rc SendRes.ok evs).1 = st
    ∧ init_socket false = ⟨false, true⟩ := by
  refine ⟨rfl, ?_, rfl⟩
  simp [readConn, h]

/-- Witness for the amended C5 theorem at the Connected state. -/
theorem conn_state_transitions_witness :
    readConn ⟨true, false⟩ true SendRes.err [] = (⟨false, true⟩, CallOutcome.connLost)
    ∧ (readConn ⟨true, false⟩ true SendRes.ok []).1 = (⟨true, false⟩ : ConnState)
    ∧ init_socket false = ⟨false, true⟩ :=
  conn_state_transitions ⟨true, false⟩ true [] rfl

/-- C6: for every command width and representable address, the encoded request
is exactly the 4-byte little-endian total size, then the 1-byte opcode, then
the 4-byte little-endian address, followed for writes by a payload of exactly
the declared width; the total size passed by the caller is 9 for reads and
9 + width for writes. -/
theorem request_wire_layout (ds : DataSize) (address : Int)
    (h1 : 0 ≤ address) (h2 : address < 2 ^ 32) :
    readRequest ds address
      = some (toLE 9 4 ++ [readOpcode ds] ++ toLE address.toNat 4)
    ∧ (∀ data : Int, 0 ≤ data → data < (256 : Int) ^ ds.width →
        writeRequest ds address data
          = some (toLE (9 + ds.width) 4 ++ [writeOpcode ds] ++ toLE address.toNat 4
              ++ toLE data.toNat ds.width))
    ∧ (∀ v : Nat, (toLE v ds.width).length = ds.width) := by
  rw [show (2 : Int) ^ 32 = 4294967296 from by norm_num] at h2
  exact ⟨readRequest_eq ds address h1 h2,
    fun data h3 h4 => writeRequest_eq ds address data h1 h2 h3 h4,
    toLE_length ds.width⟩

/-- Witness for C6 at width 2, address 3, payload value 515. -/
theorem request_wire_layout_witness :
    readRequest DataSize.INT16 3
      = some (toLE 9 4 ++ [readOpcode DataSize.INT16] ++ toLE ((3 : Int)).toNat 4)
    ∧ writeRequest DataSize.INT16 3 515
        = some (toLE (9 + DataSize.INT16.width) 4 ++ [writeOpcode DataSize.INT16]
            ++ toLE ((3 : Int)).toNat 4 ++ toLE ((515 : Int)).toNat DataSize.INT16.width)
    ∧ (toLE 515 DataSize.INT16.width).length = DataSize.INT16.width :=
  ⟨(request_wire_layout DataSize.INT16 3 (by decide) (by decide)).1,
    (request_wire_layout DataSize.INT16 3 (by decide) (by decide)).2.1 515
      (by decide) (by decide),
    (request_wire_layout DataSize.INT16 3 (by decide) (by decide)).2.2 515⟩

/-- C7: decoding an encoded request, reading the opcode byte at offset 4, the
little-endian address at offsets 5 to 8 and the payload bytes from offset 9,
recovers the original opcode, address and payload exactly, for addresses
below 2 to the 32 and payload values fitting the command width. -/
theorem request_roundtrip (ds : DataSize) (address data : Int)
    (h1 : 0 ≤ address) (h2 : address < 2 ^ 32)
    (h3 : 0 ≤ data) (h4 : data < (256 : Int) ^ ds.width) :
    (readRequest ds address).map decodeRequest
      = some (readOpcode ds, address.toNat, [])
    ∧ (writeRequest ds address data).map decodeRequest
      = some (writeOpcode ds, address.toNat, toLE data.toNat ds.width) := by
  rw [show (2 : Int) ^ 32 = 4294967296 from by norm_num] at h2
  have ha : address.toNat < 4294967296 := by omega
  constructor
  · rw [readRequest_eq ds address h1 h2]
    have e := decode_of_layout (readOpcode ds) 9 address.toNat [] ha
    simp only [List.append_nil, List.append_assoc, List.singleton_append] at e
    simp only [Option.map_some', List.append_assoc, List.singleton_append]
    rw [e]
  · rw [writeRequest_eq ds address data h1 h2 h3 h4]
    have e := decode_of_layout (writeOpcode ds) (9 + ds.width) address.toNat
      (toLE data.toNat ds.width) ha
    simp only [List.append_assoc, List.singleton_append] at e
    simp only [Option.map_some', List.append_assoc, List.singleton_append]
    rw [e]

/-- Witness for C7 at width 1, address 7, payload value 42. -/
theorem request_roundtrip_witness :
    (readRequest DataSize.INT8 7).map decodeRequest
      = some (readOpcode DataSize.INT8, (7 : Int).toNat, [])
    ∧ (writeRequest DataSize.INT8 7 42).map decodeRequest
      = some (writeOpcode DataSize.INT8, (7 : Int).toNat,
          toLE (42 : Int).toNat DataSize.INT8.width) :=
  request_roundtrip DataSize.INT8 7 42 (by decide) (by decide) (by decide) (by decide)

/-- C8 counterexample: the claim says the payload encoding truncates the value
modulo 2 to the 8 w and never fails; but write of value 256 at width 1 fails,
because int.to_bytes raises OverflowError instead of truncating. -/
theorem payload_encoding_fails_cex :
    writeRequest DataSize.INT8 0 256 = none ∧ to_array 256 1 = none := by decide

/-- C8 amended: the payload encoding of write succeeds exactly when the value
is nonnegative and below 2 to the 8 w, in which case the payload is the
little-endian encoding at the command width; out-of-range values make the
encoding, and hence the whole write request, fail with OverflowError. -/
theorem payload_encoding_range (ds : DataSize) (v : Int) :
    (0 ≤ v → v < (256 : Int) ^ ds.width →
      to_array v ds.width = some (toLE v.toNat ds.width))
    ∧ (¬(0 ≤ v ∧ v < (256 : Int) ^ ds.width) →
      to_array v ds.width = none
      ∧ ∀ address : Int, writeRequest ds address v = none) := by
  constructor
  · intro h1 h2
    exact to_array_fits v ds.width h1 h2
  · intro hnot
    have hz := to_array_overflow v ds.width hnot
    refine ⟨hz, fun address => ?_⟩
    cases h : create_request (writeOpcode ds) address (9 + ds.width) with
    | none => simp [writeRequest, h]
    | some req => simp [writeRequest, h, hz]

/-- Witness for the amended C8 theorem at width 1, values 5 and 256. -/
theorem payload_encoding_range_witness :
    to_array 5 DataSize.INT8.width = some (toLE (5 : Int).toNat DataSize.INT8.width)
    ∧ to_array 256 DataSize.INT8.width = none
    ∧ writeRequest DataSize.INT8 0 256 = none :=
  ⟨(payload_encoding_range DataSize.INT8 5).1 (by decide) (by decide),
    ((payload_encoding_range DataSize.INT8 256).2 (by decide)).1,
    ((payload_encoding_range DataSize.INT8 256).2 (by decide)).2 0⟩

/-- C9: construction fails with the invalid-slot ValueError exactly for slots
outside 0 < slot ≤ 65536: slot 0 and slot 65537 fail, slot 1 and slot 65536
succeed, and a failed connection attempt during construction does not make
construction fail. -/
theorem slot_validation :
    (∀ c, pineInit 0 c = none)
    ∧ (∀ c, pineInit 65537 c = none)
    ∧ (∀ c, (pineInit 1 c).isSome)
    ∧ (∀ c, (pineInit 65536 c).isSome)
    ∧ (∀ slot : Int, ∀ c, (slot ≤ 0 ∨ 65536 < slot) → pineInit slot c = none) := by
  refine ⟨fun c => ?_, fun c => ?_, fun c => ?_, fun c => ?_, fun slot c h => ?_⟩
  · rw [pineInit, if_neg (by omega)]
  · rw [pineInit, if_neg (by omega)]
  · rw [pineInit, if_pos (by omega)]; rfl
  · rw [pineInit, if_pos (by omega)]; rfl
  · rw [pineInit, if_neg (by omega)]

/-- Witness for C9 at concrete slots 0, 65537, 1, 65536 and 70000 with both
connection outcomes. -/
theorem slot_validation_witness :
    pineInit 0 true = none ∧ pineInit 65537 true = none
    ∧ (pineInit 1 false).isSome ∧ (pineInit 65536 true).isSome
    ∧ pineInit 70000 false = none :=
  ⟨slot_validation.1 true, slot_validation.2.1 true, slot_validation.2.2.1 false,
    slot_validation.2.2.2.1 true,
    slot_validation.2.2.2.2 70000 false (Or.inr (by norm_num))⟩

/-- C10: the frame-reception and validation logic of read and write are
extensionally equal: on the same connection state, send outcome and chunk
sequence, the two receive loops accumulate identical frame bytes and the two
calls end in corresponding outcomes, the only difference being that write
discards the frame on success. -/
theorem read_write_recv_equiv (st : ConnState) (rc : Bool) (s : SendRes)
    (evs : List RecvEvent) :
    writeRecvLoop 4 [] evs = recvLoop 4 [] evs
    ∧ writeConn st rc s evs
        = ((readConn st rc s evs).1, eraseFrame (readConn st rc s evs).2) := by
  refine ⟨writeRecvLoop_eq evs 4 [], ?_⟩
  cases s with
  | err => rfl
  | ok => simp [writeConn, readConn, writeRecvExchange_eq]

end Pine
